import Mathlib

/-!
Shallow embedding of the Roomy bill/proposal/voting subsystem.

Sources embedded:
* prisma migration (enums, table defaults, unique indexes)
* src/services/transactionService.ts : createProposal, voteOnProposal, executeProposal
* billService (createBill, updateBill) and the POST /api/bills route pipeline
  (requireGroupMembership middleware + createBillHandler)

Conventions: row ids are Nat values drawn from a fresh-id counter `nextId`
(the store generates cuids); timestamps are Int; DECIMAL amounts are
fixed-point integers; JavaScript float arithmetic in the voting-threshold
check is modelled exactly over ℚ.  Each service throws before any write, so
operations return the (possibly updated) database together with an
Except-style result; every error path returns the database it had at the
point of the throw.
-/

namespace Roomy

/-- Enum MemberRole from the prisma schema. -/
inductive MemberRole
  | ADMIN
  | MEMBER
  | VIEWER
deriving DecidableEq

/-- Enum BillStatus from the prisma schema. -/
inductive BillStatus
  | DRAFT
  | PROPOSED
  | APPROVED
  | REJECTED
  | PAID
  | CANCELLED
deriving DecidableEq

/-- Enum ProposalStatus from the prisma schema. -/
inductive ProposalStatus
  | PENDING
  | APPROVED
  | REJECTED
  | EXECUTED
  | EXPIRED
  | CANCELLED
deriving DecidableEq

/-- Enum VoteType from the prisma schema. -/
inductive VoteType
  | FOR
  | AGAINST
  | ABSTAIN
deriving DecidableEq

/-- Row of the groups table (fields used by the embedded operations). -/
structure Group where
  id : Nat
  votingThreshold : Int
  isActive : Bool
deriving DecidableEq

/-- Row of the group_members table. -/
structure GroupMember where
  groupId : Nat
  userId : Nat
  role : MemberRole
  isActive : Bool
deriving DecidableEq

/-- Row of the bill_items table (billId kept implicit: items are nested under
their bill, mirroring the nested create/replace prisma calls). -/
structure BillItem where
  description : String
  amount : Int
  quantity : Nat
deriving DecidableEq

/-- Row of the bills table. -/
structure Bill where
  id : Nat
  groupId : Nat
  createdBy : Nat
  title : String
  description : Option String
  totalAmount : Int
  currency : String
  dueDate : Option Int
  payeeAddress : String
  categoryId : Option Nat
  attachmentUrl : Option String
  status : BillStatus
  items : List BillItem
deriving DecidableEq

/-- Row of the proposals table. -/
structure Proposal where
  id : Nat
  billId : Nat
  groupId : Nat
  createdBy : Nat
  title : String
  description : Option String
  status : ProposalStatus
  votesFor : Nat
  votesAgainst : Nat
  votesAbstain : Nat
  votingDeadline : Int
  executedAt : Option Int
deriving DecidableEq

/-- Row of the votes table. -/
structure Vote where
  id : Nat
  proposalId : Nat
  userId : Nat
  voteType : VoteType
  comment : Option String
deriving DecidableEq

/-- The relational store: the tables touched by the embedded operations plus a
fresh-id counter standing in for cuid generation. -/
structure DB where
  nextId : Nat
  groups : List Group
  members : List GroupMember
  bills : List Bill
  proposals : List Proposal
  votes : List Vote
deriving DecidableEq

/-- Typed rendering of the Error values the services throw and of the
middleware rejections; the constructors follow the error taxonomy the
controllers apply when classifying thrown messages (messages containing
"not found" become 404, messages containing "Unauthorized" become 403,
and so on).  Each constructor carries the exact source message. -/
inductive SvcError
  | notFound (msg : String)
  | unauthorized (msg : String)
  | forbidden (msg : String)
  | invalidState (msg : String)
  | conflict (msg : String)
  | invalidInput (msg : String)
deriving DecidableEq

/-- Decidable equality for Except results, used to evaluate concrete
scenarios. -/
instance {ε α : Type} [DecidableEq ε] [DecidableEq α] : DecidableEq (Except ε α) := fun a b =>
  match a, b with
  | Except.ok x, Except.ok y =>
    if h : x = y then isTrue (h ▸ rfl) else isFalse (fun hc => h (Except.ok.inj hc))
  | Except.error x, Except.error y =>
    if h : x = y then isTrue (h ▸ rfl) else isFalse (fun hc => h (Except.error.inj hc))
  | Except.ok _, Except.error _ => isFalse (fun hc => Except.noConfusion hc)
  | Except.error _, Except.ok _ => isFalse (fun hc => Except.noConfusion hc)

section RowHelpers

variable {α : Type} (getId : α → Nat)

/-- prisma findUnique / findFirst by id over a table. -/
def findById (l : List α) (i : Nat) : Option α :=
  l.find? (fun a => getId a == i)

/-- prisma update by unique id: rewrite the row(s) whose id matches. -/
def updateById (l : List α) (i : Nat) (f : α → α) : List α :=
  l.map (fun a => if getId a = i then f a else a)

theorem findById_updateById (l : List α) (i j : Nat) (f : α → α)
    (hf : ∀ a, getId (f a) = getId a) :
    findById getId (updateById getId l i f) j =
      (findById getId l j).map (fun a => if getId a = i then f a else a) := by
  induction l with
  | nil => rfl
  | cons a l ih =>
    simp only [findById, updateById, List.map_cons] at ih ⊢
    by_cases haj : getId a = j
    · have hupd : getId (if getId a = i then f a else a) = j := by
        by_cases hai : getId a = i
        · rw [if_pos hai, hf]; exact haj
        · rw [if_neg hai]; exact haj
      rw [List.find?_cons_of_pos _ (by simp [hupd]), List.find?_cons_of_pos _ (by simp [haj])]
      simp
    · have hupd : getId (if getId a = i then f a else a) ≠ j := by
        by_cases hai : getId a = i
        · rw [if_pos hai, hf]; exact haj
        · rw [if_neg hai]; exact haj
      rw [List.find?_cons_of_neg _ (by simp [hupd]), List.find?_cons_of_neg _ (by simp [haj])]
      exact ih

theorem findById_eq_some {l : List α} {i : Nat} {a : α}
    (h : findById getId l i = some a) : a ∈ l ∧ getId a = i := by
  refine ⟨List.mem_of_find?_eq_some h, ?_⟩
  have := List.find?_some h
  exact of_decide_eq_true this

theorem findById_eq_none {l : List α} {i : Nat}
    (h : findById getId l i = none) : ∀ a ∈ l, getId a ≠ i := by
  intro a ha hai
  have := List.find?_eq_none.mp h a ha
  simp [hai] at this

theorem findById_append_of_none {l₁ l₂ : List α} {i : Nat}
    (h : findById getId l₁ i = none) :
    findById getId (l₁ ++ l₂) i = findById getId l₂ i := by
  simp only [findById] at h ⊢
  rw [List.find?_append, h, Option.none_or]

theorem mem_updateById {l : List α} {i : Nat} {f : α → α} {b : α}
    (h : b ∈ updateById getId l i f) :
    ∃ a ∈ l, b = if getId a = i then f a else a := by
  simp only [updateById, List.mem_map] at h
  obtain ⟨a, ha, rfl⟩ := h
  exact ⟨a, ha, rfl⟩

theorem forall2_map_self {R : α → α → Prop} {l : List α} {g : α → α}
    (h : ∀ a ∈ l, R a (g a)) : List.Forall₂ R l (l.map g) := by
  induction l with
  | nil => exact List.Forall₂.nil
  | cons a l ih =>
    exact List.Forall₂.cons (h a (List.mem_cons_self a l))
      (ih fun x hx => h x (List.mem_cons_of_mem a hx))

theorem forall2_refl {R : α → α → Prop} {l : List α}
    (h : ∀ a ∈ l, R a a) : List.Forall₂ R l l :=
  List.forall₂_same.mpr h

end RowHelpers

/-- Membership & Role Oracle: prisma groupMember.findFirst with
userId, groupId and isActive true (also the filtered members include used by
the bill/proposal services). -/
def findActiveMembership (db : DB) (userId groupId : Nat) : Option GroupMember :=
  db.members.find? (fun m => m.userId == userId && m.groupId == groupId && m.isActive)

/-- prisma bill.findUnique by id. -/
def findBill (db : DB) (billId : Nat) : Option Bill :=
  findById Bill.id db.bills billId

/-- prisma proposal.findUnique by id. -/
def findProposal (db : DB) (proposalId : Nat) : Option Proposal :=
  findById Proposal.id db.proposals proposalId

/-- prisma group.findUnique by id. -/
def findGroup (db : DB) (groupId : Nat) : Option Group :=
  findById Group.id db.groups groupId

/-- prisma vote.findUnique on the composite unique key proposalId_userId. -/
def findVote (db : DB) (proposalId userId : Nat) : Option Vote :=
  db.votes.find? (fun v => v.proposalId == proposalId && v.userId == userId)

/-- Input of createProposal (transactionService.ts, CreateProposalInput). -/
structure CreateProposalInput where
  billId : Nat
  title : String
  description : Option String
  votingDeadline : Int
deriving DecidableEq

/-- The Proposal row inserted by createProposal: status PENDING is set
explicitly, the three vote counters come from the schema defaults (0), the
deadline is taken from the input. -/
def builtProposal (db : DB) (userId : Nat) (data : CreateProposalInput) (bill : Bill) :
    Proposal :=
  { id := db.nextId
    billId := bill.id
    groupId := bill.groupId
    createdBy := userId
    title := data.title
    description := data.description
    status := ProposalStatus.PENDING
    votesFor := 0
    votesAgainst := 0
    votesAbstain := 0
    votingDeadline := data.votingDeadline
    executedAt := none }

/-- First store write of createProposal: prisma.proposal.create.  This is its
own transaction; it commits before the bill update below runs. -/
def insertProposalWrite (db : DB) (p : Proposal) : DB :=
  { db with nextId := db.nextId + 1, proposals := db.proposals ++ [p] }

/-- Second store write of createProposal: prisma.bill.update setting
status = PROPOSED, again its own transaction. -/
def markBillProposedWrite (db : DB) (billId : Nat) : DB :=
  let setProposed : Bill → Bill := fun b => { b with status := BillStatus.PROPOSED }
  { db with bills := updateById Bill.id db.bills billId setProposed }

/-- transactionService.ts createProposal: load the bill with the caller's
active membership, reject missing bill, non-members, and non-DRAFT bills,
then insert the Proposal (the unique index proposals_billId_key makes the
insert itself fail if the bill already has a proposal) and mark the bill
PROPOSED with a second, separate write. -/
def createProposal (db : DB) (userId : Nat) (data : CreateProposalInput) :
    DB × Except SvcError Proposal :=
  match findBill db data.billId with
  | none => (db, Except.error (SvcError.notFound "Bill not found"))
  | some bill =>
    match findActiveMembership db userId bill.groupId with
    | none => (db, Except.error (SvcError.unauthorized "Unauthorized: Not a member of the bill group"))
    | some _ =>
      if bill.status ≠ BillStatus.DRAFT then
        (db, Except.error (SvcError.invalidState "Proposal can only be created from DRAFT bills"))
      else if db.proposals.any (fun p => p.billId == bill.id) then
        (db, Except.error (SvcError.conflict "Unique constraint failed on the fields: (billId)"))
      else
        let proposal := builtProposal db userId data bill
        (markBillProposedWrite (insertProposalWrite db proposal) bill.id, Except.ok proposal)

/-- The yesPercent computed in the threshold step of voteOnProposal:
totalVotes greater than 0 divides, otherwise 0.  JavaScript float division
is modelled exactly over ℚ. -/
def yesPercent (votesFor totalVotes : Nat) : ℚ :=
  if 0 < totalVotes then ((votesFor : ℚ) / (totalVotes : ℚ)) * 100 else 0

/-- The comparison yesPct greater-or-equal group.votingThreshold from
voteOnProposal. -/
def thresholdCheck (votesFor totalVotes : Nat) (threshold : Int) : Bool :=
  decide ((threshold : ℚ) ≤ yesPercent votesFor totalVotes)

theorem yesPercent_zero (votesFor : Nat) : yesPercent votesFor 0 = 0 := by
  simp [yesPercent]

/-- The ℚ-valued threshold comparison of the source rearranged into an
equivalent integer comparison (kernel-computable form used to evaluate
concrete scenarios). -/
theorem thresholdCheck_eq (vf tot : Nat) (thr : Int) :
    thresholdCheck vf tot thr =
      if 0 < tot then decide (thr * (tot : Int) ≤ (vf : Int) * 100)
      else decide (thr ≤ 0) := by
  unfold thresholdCheck yesPercent
  by_cases h : 0 < tot
  · rw [if_pos h, if_pos h]
    rw [decide_eq_decide]
    have htot : (0 : ℚ) < (tot : ℚ) := by exact_mod_cast h
    rw [div_mul_eq_mul_div, le_div_iff₀ htot]
    constructor
    · intro hle
      have : ((thr * tot : Int) : ℚ) ≤ (((vf : Int) * 100 : Int) : ℚ) := by push_cast; exact hle
      exact_mod_cast this
    · intro hle
      have : ((thr * tot : Int) : ℚ) ≤ (((vf : Int) * 100 : Int) : ℚ) := by exact_mod_cast hle
      push_cast at this
      exact this
  · rw [if_neg h, if_neg h]
    rw [decide_eq_decide]
    constructor
    · intro hle
      exact_mod_cast hle
    · intro hle
      exact_mod_cast hle

/-- Third and fourth store writes of the approval branch of voteOnProposal:
prisma.proposal.update to APPROVED followed by prisma.bill.update to
APPROVED, each its own transaction. -/
def approveWrites (db : DB) (proposalId billId : Nat) : DB :=
  let setProposalApproved : Proposal → Proposal :=
    fun p => { p with status := ProposalStatus.APPROVED }
  let setBillApproved : Bill → Bill := fun b => { b with status := BillStatus.APPROVED }
  let db3 := { db with proposals := updateById Proposal.id db.proposals proposalId setProposalApproved }
  { db3 with bills := updateById Bill.id db3.bills billId setBillApproved }

/-- transactionService.ts voteOnProposal: load the proposal joined with its
bill and the caller's active membership (the bill relation is required, so
the joined load fails only when the proposal row or — impossible under the
foreign key votes→proposals→bills — its bill is missing), reject duplicate
votes via the proposalId_userId unique lookup, map the boolean flag to
FOR/AGAINST, insert the Vote, bump the matching counter read-then-write
from the earlier proposal load, and run the threshold check on the updated
counters, approving proposal and bill when it passes. -/
def voteOnProposal (db : DB) (userId proposalId : Nat) (isApproved : Bool)
    (comment : Option String) : DB × Except SvcError Vote :=
  match findProposal db proposalId with
  | none => (db, Except.error (SvcError.notFound "Proposal not found"))
  | some proposal =>
    match findBill db proposal.billId with
    | none => (db, Except.error (SvcError.notFound "Proposal not found"))
    | some bill =>
      match findActiveMembership db userId bill.groupId with
      | none => (db, Except.error (SvcError.unauthorized "Unauthorized: Not a member of the group"))
      | some _ =>
        match findVote db proposalId userId with
        | some _ => (db, Except.error (SvcError.conflict "You have already voted on this proposal"))
        | none =>
          let voteType := if isApproved then VoteType.FOR else VoteType.AGAINST
          let createdVote : Vote :=
            { id := db.nextId, proposalId := proposalId, userId := userId
              voteType := voteType, comment := comment }
          let db1 := { db with nextId := db.nextId + 1, votes := db.votes ++ [createdVote] }
          let counterBump : Proposal → Proposal := fun p =>
            if voteType = VoteType.FOR then { p with votesFor := proposal.votesFor + 1 }
            else { p with votesAgainst := proposal.votesAgainst + 1 }
          let db2 := { db1 with proposals := updateById Proposal.id db1.proposals proposalId counterBump }
          let updated := counterBump proposal
          match findGroup db2 bill.groupId with
          | none => (db2, Except.ok createdVote)
          | some group =>
            let totalVotes := updated.votesFor + updated.votesAgainst + updated.votesAbstain
            if thresholdCheck updated.votesFor totalVotes group.votingThreshold then
              (approveWrites db2 proposalId proposal.billId, Except.ok createdVote)
            else
              (db2, Except.ok createdVote)

/-- transactionService.ts executeProposal: load the proposal with its bill,
check active membership of the bill's group, and mark the proposal EXECUTED
with executedAt set to the current time — no check that the proposal is
APPROVED first. -/
def executeProposal (db : DB) (userId proposalId : Nat) (now : Int) :
    DB × Except SvcError Proposal :=
  match findProposal db proposalId with
  | none => (db, Except.error (SvcError.notFound "Proposal not found"))
  | some proposal =>
    match findBill db proposal.billId with
    | none => (db, Except.error (SvcError.notFound "Proposal not found"))
    | some bill =>
      match findActiveMembership db userId bill.groupId with
      | none => (db, Except.error (SvcError.unauthorized "Unauthorized: Not a member of the group"))
      | some _ =>
        let setExecuted : Proposal → Proposal :=
          fun p => { p with status := ProposalStatus.EXECUTED, executedAt := some now }
        let executed := setExecuted proposal
        let db1 := { db with proposals := updateById Proposal.id db.proposals proposalId setExecuted }
        (db1, Except.ok executed)

/-- Item entry of the bill inputs. -/
structure BillItemInput where
  description : String
  amount : Int
  quantity : Option Nat
deriving DecidableEq

/-- Input of createBill (billService, CreateBillInput). -/
structure CreateBillInput where
  groupId : Nat
  title : String
  description : Option String
  totalAmount : Int
  currency : Option String
  dueDate : Option Int
  payeeAddress : String
  categoryId : Option Nat
  attachmentUrl : Option String
  items : Option (List BillItemInput)
deriving DecidableEq

/-- JavaScript item.quantity || 1: undefined and 0 both fall back to 1. -/
def itemQuantity : Option Nat → Nat
  | none => 1
  | some 0 => 1
  | some q => q

/-- Nested BillItem rows created with a bill. -/
def builtItems (items : Option (List BillItemInput)) : List BillItem :=
  (items.getD []).map (fun it =>
    { description := it.description, amount := it.amount, quantity := itemQuantity it.quantity })

/-- The Bill row produced by createBill: the status comes from the schema
default DRAFT, the currency from the schema default USDC when absent, the
optional fields are nulled, and the nested items are created in the same
prisma.bill.create call. -/
def builtBill (db : DB) (userId : Nat) (input : CreateBillInput) : Bill :=
  { id := db.nextId
    groupId := input.groupId
    createdBy := userId
    title := input.title
    description := input.description
    totalAmount := input.totalAmount
    currency := input.currency.getD "USDC"
    dueDate := input.dueDate
    payeeAddress := input.payeeAddress
    categoryId := input.categoryId
    attachmentUrl := input.attachmentUrl
    status := BillStatus.DRAFT
    items := builtItems input.items }

/-- billService createBill: one prisma.bill.create persisting the bill and
its nested items together.  The service itself performs no membership
check — authorization for bill creation lives only in the route
middleware, see postBill below. -/
def createBill (db : DB) (userId : Nat) (input : CreateBillInput) :
    DB × Except SvcError Bill :=
  let bill := builtBill db userId input
  ({ db with nextId := db.nextId + 1, bills := db.bills ++ [bill] }, Except.ok bill)

/-- createBillHandler body (billController): require userId (always present
after the authenticate middleware), reject JavaScript-falsy required fields
with a 422, then call the service. -/
def createBillHandler (db : DB) (userId : Nat) (input : CreateBillInput) :
    DB × Except SvcError Bill :=
  if input.title = "" ∨ input.totalAmount = 0 ∨ input.payeeAddress = "" then
    (db, Except.error (SvcError.invalidInput
      "Missing required fields: groupId, title, totalAmount, payeeAddress"))
  else
    createBill db userId input

/-- POST /api/bills pipeline after the authenticate and (out-of-scope)
input-validation middleware: requireGroupMembership on the body groupId —
rejecting with the 403 sendForbidden response when no active membership row
exists — then createBillHandler. -/
def postBill (db : DB) (userId : Nat) (input : CreateBillInput) :
    DB × Except SvcError Bill :=
  match findActiveMembership db userId input.groupId with
  | none => (db, Except.error (SvcError.forbidden "You are not a member of this group"))
  | some _ => createBillHandler db userId input

/-- Patch accepted by updateBill (billService, UpdateBillInput): none models
an absent (undefined) field, which is skipped. -/
structure UpdateBillInput where
  title : Option String
  description : Option String
  totalAmount : Option Int
  currency : Option String
  dueDate : Option Int
  payeeAddress : Option String
  categoryId : Option Nat
  attachmentUrl : Option String
  status : Option BillStatus
  items : Option (List BillItemInput)
deriving DecidableEq

/-- The all-absent patch. -/
def emptyPatch : UpdateBillInput :=
  { title := none, description := none, totalAmount := none, currency := none
    dueDate := none, payeeAddress := none, categoryId := none
    attachmentUrl := none, status := none, items := none }

/-- Field-by-field application of an updateBill patch to a bill row,
mirroring the conditional assignments of billService updateBill: every
provided field — the status included, unchecked against any state
machine — is written through, and a provided items list replaces the
nested items (deleteMany + create). -/
def applyBillPatch (patch : UpdateBillInput) (b : Bill) : Bill :=
  let b := match patch.title with | some t => { b with title := t } | none => b
  let b := match patch.description with | some d => { b with description := some d } | none => b
  let b := match patch.totalAmount with | some a => { b with totalAmount := a } | none => b
  let b := match patch.currency with | some c => { b with currency := c } | none => b
  let b := match patch.dueDate with | some d => { b with dueDate := some d } | none => b
  let b := match patch.payeeAddress with | some p => { b with payeeAddress := p } | none => b
  let b := match patch.categoryId with | some c => { b with categoryId := some c } | none => b
  let b := match patch.attachmentUrl with | some u => { b with attachmentUrl := some u } | none => b
  let b := match patch.status with | some s => { b with status := s } | none => b
  match patch.items with | some its => { b with items := builtItems (some its) } | none => b

/-- billService updateBill: load the bill with the caller's active
membership, reject a missing bill, allow only the creator or a group ADMIN,
and write the patch through — no bill-state restriction of any kind
(updatedAt bookkeeping is not modelled). -/
def updateBill (db : DB) (billId userId : Nat) (patch : UpdateBillInput) :
    DB × Except SvcError Bill :=
  match findBill db billId with
  | none => (db, Except.error (SvcError.notFound "Bill not found"))
  | some existingBill =>
    let userMembership := findActiveMembership db userId existingBill.groupId
    let isCreator : Bool := existingBill.createdBy == userId
    let isAdmin : Bool := match userMembership with
      | some m => m.role == MemberRole.ADMIN
      | none => false
    if !isCreator && !isAdmin then
      (db, Except.error (SvcError.unauthorized "Unauthorized to update this bill"))
    else
      let updatedBill := applyBillPatch patch existingBill
      let db1 := { db with bills := updateById Bill.id db.bills billId (applyBillPatch patch) }
      (db1, Except.ok updatedBill)

/-!  Concrete scenario used by the witnesses: one group with the default
votingThreshold 51, four active members (user 1 is the ADMIN), a PROPOSED
bill 10 carrying proposal 20 with one FOR vote already cast by user 1, and
a DRAFT bill 11 without a proposal. -/

/-- A PROPOSED sample bill. -/
def bill10 : Bill :=
  { id := 10, groupId := 1, createdBy := 1, title := "Rent", description := none
    totalAmount := 900, currency := "USDC", dueDate := none, payeeAddress := "0xabc"
    categoryId := none, attachmentUrl := none, status := BillStatus.PROPOSED, items := [] }

/-- A DRAFT sample bill. -/
def bill11 : Bill :=
  { id := 11, groupId := 1, createdBy := 2, title := "Internet", description := none
    totalAmount := 60, currency := "USDC", dueDate := none, payeeAddress := "0xdef"
    categoryId := none, attachmentUrl := none, status := BillStatus.DRAFT, items := [] }

/-- The PENDING sample proposal on bill 10, one FOR vote tallied. -/
def proposal20 : Proposal :=
  { id := 20, billId := 10, groupId := 1, createdBy := 1, title := "Rent"
    description := none, status := ProposalStatus.PENDING, votesFor := 1
    votesAgainst := 0, votesAbstain := 0, votingDeadline := 1000, executedAt := none }

/-- The sample group, default threshold 51. -/
def grp1 : Group := { id := 1, votingThreshold := 51, isActive := true }

/-- The sample ADMIN member. -/
def mem1 : GroupMember := { groupId := 1, userId := 1, role := MemberRole.ADMIN, isActive := true }

/-- A sample MEMBER member. -/
def mem2 : GroupMember := { groupId := 1, userId := 2, role := MemberRole.MEMBER, isActive := true }

/-- A sample MEMBER member. -/
def mem3 : GroupMember := { groupId := 1, userId := 3, role := MemberRole.MEMBER, isActive := true }

/-- A sample MEMBER member. -/
def mem4 : GroupMember := { groupId := 1, userId := 4, role := MemberRole.MEMBER, isActive := true }

/-- The FOR vote already tallied on proposal 20. -/
def vote30 : Vote := { id := 30, proposalId := 20, userId := 1, voteType := VoteType.FOR, comment := none }

/-- The sample store. -/
def sampleDb : DB :=
  { nextId := 40
    groups := [grp1]
    members := [mem1, mem2, mem3, mem4]
    bills := [bill10, bill11]
    proposals := [proposal20]
    votes := [vote30] }

/-- C2: executeProposal succeeds for every existing proposal in any status
(PENDING included) whenever the caller is an active member of the bill's
group, setting Proposal.status = EXECUTED and executedAt to the current
time, with no requirement that the status already be APPROVED. -/
theorem claim_C2_execute_any_status (db : DB) (u pid : Nat) (now : Int)
    (p : Proposal) (bill : Bill) (m : GroupMember)
    (hp : findProposal db pid = some p)
    (hb : findBill db p.billId = some bill)
    (hm : findActiveMembership db u bill.groupId = some m) :
    (executeProposal db u pid now).2 =
        Except.ok { p with status := ProposalStatus.EXECUTED, executedAt := some now }
      ∧ findProposal (executeProposal db u pid now).1 pid =
          some { p with status := ProposalStatus.EXECUTED, executedAt := some now } := by
  have hpid : p.id = pid := (findById_eq_some Proposal.id hp).2
  have hp' : findById Proposal.id db.proposals pid = some p := hp
  constructor
  · simp only [executeProposal, findProposal, hp', hb, hm]
  · simp only [executeProposal, findProposal, hp', hb, hm]
    rw [findById_updateById Proposal.id db.proposals pid pid
      (fun q => { q with status := ProposalStatus.EXECUTED, executedAt := some now })
      (fun a => rfl)]
    rw [hp']
    simp [hpid]

/-- Closed instance of C2: member 1 executes the still-PENDING proposal 20
of the sample store. -/
theorem claim_C2_witness :
    (findProposal sampleDb 20 = some proposal20
      ∧ findBill sampleDb proposal20.billId = some bill10
      ∧ findActiveMembership sampleDb 1 bill10.groupId =
          some { groupId := 1, userId := 1, role := MemberRole.ADMIN, isActive := true })
    ∧ ((executeProposal sampleDb 1 20 777).2 =
        Except.ok { proposal20 with status := ProposalStatus.EXECUTED, executedAt := some 777 }
      ∧ findProposal (executeProposal sampleDb 1 20 777).1 20 =
          some { proposal20 with status := ProposalStatus.EXECUTED, executedAt := some 777 }) :=
  ⟨⟨by decide, by decide, by decide⟩,
    claim_C2_execute_any_status sampleDb 1 20 777 proposal20 bill10
      { groupId := 1, userId := 1, role := MemberRole.ADMIN, isActive := true }
      (by decide) (by decide) (by decide)⟩

/-- C4: createProposal by an active member on a bill whose status is not
DRAFT fails with the InvalidState error and returns the store unchanged —
no Proposal row is created and the bill's status is untouched. -/
theorem claim_C4_nonDraft_invalidState (db : DB) (u : Nat) (d : CreateProposalInput)
    (bill : Bill) (m : GroupMember)
    (hb : findBill db d.billId = some bill)
    (hm : findActiveMembership db u bill.groupId = some m)
    (hst : bill.status ≠ BillStatus.DRAFT) :
    createProposal db u d =
      (db, Except.error (SvcError.invalidState "Proposal can only be created from DRAFT bills")) := by
  simp only [createProposal, hb, hm, if_pos hst]

/-- Closed instance of C4: member 1 proposing the already-PROPOSED bill 10. -/
theorem claim_C4_witness :
    (findBill sampleDb 10 = some bill10
      ∧ findActiveMembership sampleDb 1 bill10.groupId =
          some { groupId := 1, userId := 1, role := MemberRole.ADMIN, isActive := true }
      ∧ bill10.status ≠ BillStatus.DRAFT)
    ∧ createProposal sampleDb 1
        { billId := 10, title := "again", description := none, votingDeadline := 2000 } =
      (sampleDb, Except.error (SvcError.invalidState "Proposal can only be created from DRAFT bills")) :=
  ⟨⟨by decide, by decide, by decide⟩,
    claim_C4_nonDraft_invalidState sampleDb 1
      { billId := 10, title := "again", description := none, votingDeadline := 2000 }
      bill10 { groupId := 1, userId := 1, role := MemberRole.ADMIN, isActive := true }
      (by decide) (by decide) (by decide)⟩

/-- C10: updateBill accepts a status field and writes it through unchecked —
for every existing bill in any current status and every BillStatus value s,
a patch carrying only status, issued by the bill's creator or by a group
ADMIN, succeeds and sets Bill.status = s, with no proposal or vote involved
(no state-machine guard on the update path). -/
theorem claim_C10_updateBill_status_unchecked (db : DB) (bid u : Nat) (s : BillStatus)
    (bill : Bill)
    (hb : findBill db bid = some bill)
    (hauth : bill.createdBy = u ∨
      ∃ mb, findActiveMembership db u bill.groupId = some mb ∧ mb.role = MemberRole.ADMIN) :
    (updateBill db bid u { emptyPatch with status := some s }).2 =
        Except.ok (applyBillPatch { emptyPatch with status := some s } bill)
      ∧ (applyBillPatch { emptyPatch with status := some s } bill).status = s
      ∧ (findBill (updateBill db bid u { emptyPatch with status := some s }).1 bid).map Bill.status
          = some s := by
  have hbid : bill.id = bid := (findById_eq_some Bill.id hb).2
  have hb' : findById Bill.id db.bills bid = some bill := hb
  have hcond : (!(bill.createdBy == u) &&
      !(match findActiveMembership db u bill.groupId with
        | some mb => mb.role == MemberRole.ADMIN
        | none => false)) = false := by
    rcases hauth with hcr | ⟨mb, hmb, hrole⟩
    · simp [hcr]
    · simp [hmb, hrole]
  have hstatus : (applyBillPatch { emptyPatch with status := some s } bill).status = s := by
    simp [applyBillPatch, emptyPatch]
  refine ⟨?_, hstatus, ?_⟩
  · simp only [updateBill, findBill, hb', hcond, Bool.false_eq_true, if_false]
  · simp only [updateBill, findBill, hb', hcond, Bool.false_eq_true, if_false]
    rw [findById_updateById Bill.id db.bills bid bid
      (applyBillPatch { emptyPatch with status := some s })
      (fun a => by simp [applyBillPatch, emptyPatch])]
    rw [hb']
    simp [hbid, hstatus]

/-- Closed instance of C10: creator 1 moves the PROPOSED bill 10 straight to
PAID without any proposal or vote. -/
theorem claim_C10_witness :
    (findBill sampleDb 10 = some bill10 ∧ bill10.createdBy = 1)
    ∧ ((updateBill sampleDb 10 1 { emptyPatch with status := some BillStatus.PAID }).2 =
        Except.ok (applyBillPatch { emptyPatch with status := some BillStatus.PAID } bill10)
      ∧ (applyBillPatch { emptyPatch with status := some BillStatus.PAID } bill10).status =
          BillStatus.PAID
      ∧ (findBill (updateBill sampleDb 10 1
            { emptyPatch with status := some BillStatus.PAID }).1 10).map Bill.status
          = some BillStatus.PAID) :=
  ⟨⟨by decide, by decide⟩,
    claim_C10_updateBill_status_unchecked sampleDb 10 1 BillStatus.PAID bill10
      (by decide) (Or.inl (by decide))⟩

theorem createProposal_cases (db : DB) (u : Nat) (d : CreateProposalInput) :
    (∃ e, createProposal db u d = (db, Except.error e))
    ∨ (∃ r, (createProposal db u d).2 = Except.ok r) := by
  simp only [createProposal]
  split
  · exact Or.inl ⟨_, rfl⟩
  · split
    · exact Or.inl ⟨_, rfl⟩
    · split
      · exact Or.inl ⟨_, rfl⟩
      · split
        · exact Or.inl ⟨_, rfl⟩
        · exact Or.inr ⟨_, rfl⟩

theorem voteOnProposal_cases (db : DB) (u pid : Nat) (b : Bool) (c : Option String) :
    (∃ e, voteOnProposal db u pid b c = (db, Except.error e))
    ∨ (∃ v, (voteOnProposal db u pid b c).2 = Except.ok v) := by
  simp only [voteOnProposal]
  repeat' split
  all_goals first
  | exact Or.inl ⟨_, rfl⟩
  | exact Or.inr ⟨_, rfl⟩

theorem executeProposal_cases (db : DB) (u pid : Nat) (now : Int) :
    (∃ e, executeProposal db u pid now = (db, Except.error e))
    ∨ (∃ r, (executeProposal db u pid now).2 = Except.ok r) := by
  simp only [executeProposal]
  split
  · exact Or.inl ⟨_, rfl⟩
  · split
    · exact Or.inl ⟨_, rfl⟩
    · split
      · exact Or.inl ⟨_, rfl⟩
      · exact Or.inr ⟨_, rfl⟩

/-- C7: a caller without an active membership in the relevant bill's or
proposal's group gets the Unauthorized error from createProposal,
voteOnProposal and executeProposal with the store returned unchanged; and
more generally every failing run of these operations (authorization and
state checks precede all writes) leaves the store exactly as it was. -/
theorem claim_C7_unauthorized_no_writes (db : DB) (u : Nat) :
    (∀ d bill, findBill db d.billId = some bill →
      findActiveMembership db u bill.groupId = none →
      createProposal db u d =
        (db, Except.error (SvcError.unauthorized "Unauthorized: Not a member of the bill group")))
    ∧ (∀ pid b c p bill, findProposal db pid = some p →
      findBill db p.billId = some bill →
      findActiveMembership db u bill.groupId = none →
      voteOnProposal db u pid b c =
        (db, Except.error (SvcError.unauthorized "Unauthorized: Not a member of the group")))
    ∧ (∀ pid now p bill, findProposal db pid = some p →
      findBill db p.billId = some bill →
      findActiveMembership db u bill.groupId = none →
      executeProposal db u pid now =
        (db, Except.error (SvcError.unauthorized "Unauthorized: Not a member of the group")))
    ∧ (∀ d e, (createProposal db u d).2 = Except.error e → (createProposal db u d).1 = db)
    ∧ (∀ pid b c e, (voteOnProposal db u pid b c).2 = Except.error e →
        (voteOnProposal db u pid b c).1 = db)
    ∧ (∀ pid now e, (executeProposal db u pid now).2 = Except.error e →
        (executeProposal db u pid now).1 = db) := by
  refine ⟨?_, ?_, ?_, ?_, ?_, ?_⟩
  · intro d bill hb hm
    simp only [createProposal, hb, hm]
  · intro pid b c p bill hp hb hm
    simp only [voteOnProposal, hp, hb, hm]
  · intro pid now p bill hp hb hm
    simp only [executeProposal, hp, hb, hm]
  · intro d e h
    rcases createProposal_cases db u d with ⟨e2, heq⟩ | ⟨r, hok⟩
    · rw [heq]
    · rw [hok] at h
      exact absurd h (by simp)
  · intro pid b c e h
    rcases voteOnProposal_cases db u pid b c with ⟨e2, heq⟩ | ⟨v, hok⟩
    · rw [heq]
    · rw [hok] at h
      exact absurd h (by simp)
  · intro pid now e h
    rcases executeProposal_cases db u pid now with ⟨e2, heq⟩ | ⟨r, hok⟩
    · rw [heq]
    · rw [hok] at h
      exact absurd h (by simp)

/-- Closed instance of C7: user 9 is no member of group 1, so all three
operations reject with Unauthorized and the sample store is unchanged. -/
theorem claim_C7_witness :
    (findBill sampleDb 10 = some bill10
      ∧ findProposal sampleDb 20 = some proposal20
      ∧ findActiveMembership sampleDb 9 1 = none)
    ∧ createProposal sampleDb 9
        { billId := 10, title := "t", description := none, votingDeadline := 0 } =
      (sampleDb, Except.error (SvcError.unauthorized "Unauthorized: Not a member of the bill group"))
    ∧ voteOnProposal sampleDb 9 20 true none =
      (sampleDb, Except.error (SvcError.unauthorized "Unauthorized: Not a member of the group"))
    ∧ executeProposal sampleDb 9 20 0 =
      (sampleDb, Except.error (SvcError.unauthorized "Unauthorized: Not a member of the group")) :=
  ⟨⟨by decide, by decide, by decide⟩,
    (claim_C7_unauthorized_no_writes sampleDb 9).1
      { billId := 10, title := "t", description := none, votingDeadline := 0 }
      bill10 (by decide) (by decide),
    (claim_C7_unauthorized_no_writes sampleDb 9).2.1 20 true none proposal20 bill10
      (by decide) (by decide) (by decide),
    (claim_C7_unauthorized_no_writes sampleDb 9).2.2.1 20 0 proposal20 bill10
      (by decide) (by decide) (by decide)⟩

/-- votesFor after a successful vote: bumped exactly when the vote maps to
FOR. -/
def newVotesFor (p : Proposal) (b : Bool) : Nat :=
  if b then p.votesFor + 1 else p.votesFor

/-- votesAgainst after a successful vote: bumped exactly when the vote maps
to AGAINST. -/
def newVotesAgainst (p : Proposal) (b : Bool) : Nat :=
  if b then p.votesAgainst else p.votesAgainst + 1

/-- totalVotes recomputed in the threshold step after the counter bump. -/
def newTotalVotes (p : Proposal) (b : Bool) : Nat :=
  newVotesFor p b + newVotesAgainst p b + p.votesAbstain

/-- C1: after every successful voteOnProposal call, with totalVotes the
post-increment counter sum, totalVotes is positive and: when
votesFor / totalVotes * 100 reaches the group's votingThreshold both the
proposal and its bill become APPROVED in that same call, and otherwise the
threshold step changes neither status; moreover yesPercent of a zero-vote
tally evaluates to 0, so a proposal with zero votes never auto-approves. -/
theorem claim_C1_threshold_rule (db : DB) (u pid : Nat) (b : Bool) (c : Option String)
    (p : Proposal) (bill : Bill) (g : Group) (m : GroupMember)
    (hp : findProposal db pid = some p)
    (hb : findBill db p.billId = some bill)
    (hg : findGroup db bill.groupId = some g)
    (hm : findActiveMembership db u bill.groupId = some m)
    (hv : findVote db pid u = none) :
    0 < newTotalVotes p b
    ∧ ((g.votingThreshold : ℚ) ≤ yesPercent (newVotesFor p b) (newTotalVotes p b) →
        (findProposal (voteOnProposal db u pid b c).1 pid).map Proposal.status
            = some ProposalStatus.APPROVED
        ∧ (findBill (voteOnProposal db u pid b c).1 p.billId).map Bill.status
            = some BillStatus.APPROVED)
    ∧ (¬ (g.votingThreshold : ℚ) ≤ yesPercent (newVotesFor p b) (newTotalVotes p b) →
        (findProposal (voteOnProposal db u pid b c).1 pid).map Proposal.status = some p.status
        ∧ (findBill (voteOnProposal db u pid b c).1 p.billId).map Bill.status = some bill.status)
    ∧ (∀ n : Nat, yesPercent n 0 = 0) := by
  have hpid : p.id = pid := (findById_eq_some Proposal.id hp).2
  have hbid : bill.id = p.billId := (findById_eq_some Bill.id hb).2
  have hp' : findById Proposal.id db.proposals pid = some p := hp
  have hb' : findById Bill.id db.bills p.billId = some bill := hb
  have hg' : findById Group.id db.groups bill.groupId = some g := hg
  have hm' : db.members.find?
      (fun x => x.userId == u && x.groupId == bill.groupId && x.isActive) = some m := hm
  have hv' : db.votes.find? (fun v => v.proposalId == pid && v.userId == u) = none := hv
  refine ⟨?_, ?_, ?_, fun n => yesPercent_zero n⟩
  · cases b <;> simp [newTotalVotes, newVotesFor, newVotesAgainst]
  · intro hth
    have hcheck : thresholdCheck (newVotesFor p b) (newTotalVotes p b) g.votingThreshold = true :=
      decide_eq_true hth
    cases b
    · simp [newVotesFor, newVotesAgainst, newTotalVotes] at hcheck
      simp only [voteOnProposal, findProposal, findBill, findGroup, findActiveMembership,
        findVote, hp', hb', hg', hm', hv', Bool.false_eq_true, reduceCtorEq, reduceIte,
        approveWrites, hcheck, if_true]
      constructor
      · rw [findById_updateById Proposal.id
          (updateById Proposal.id db.proposals pid
            (fun q => { q with votesAgainst := p.votesAgainst + 1 })) pid pid
          (fun q => { q with status := ProposalStatus.APPROVED }) (fun a => rfl)]
        rw [findById_updateById Proposal.id db.proposals pid pid
          (fun q => { q with votesAgainst := p.votesAgainst + 1 }) (fun a => rfl)]
        rw [hp']
        simp [hpid]
      · rw [findById_updateById Bill.id db.bills p.billId p.billId
          (fun q => { q with status := BillStatus.APPROVED }) (fun a => rfl)]
        rw [hb']
        simp [hbid]
    · simp [newVotesFor, newVotesAgainst, newTotalVotes] at hcheck
      simp only [voteOnProposal, findProposal, findBill, findGroup, findActiveMembership,
        findVote, hp', hb', hg', hm', hv', reduceCtorEq, reduceIte, approveWrites,
        hcheck, if_true]
      constructor
      · rw [findById_updateById Proposal.id
          (updateById Proposal.id db.proposals pid
            (fun q => { q with votesFor := p.votesFor + 1 })) pid pid
          (fun q => { q with status := ProposalStatus.APPROVED }) (fun a => rfl)]
        rw [findById_updateById Proposal.id db.proposals pid pid
          (fun q => { q with votesFor := p.votesFor + 1 }) (fun a => rfl)]
        rw [hp']
        simp [hpid]
      · rw [findById_updateById Bill.id db.bills p.billId p.billId
          (fun q => { q with status := BillStatus.APPROVED }) (fun a => rfl)]
        rw [hb']
        simp [hbid]
  · intro hth
    have hcheck : thresholdCheck (newVotesFor p b) (newTotalVotes p b) g.votingThreshold = false :=
      decide_eq_false hth
    cases b
    · simp [newVotesFor, newVotesAgainst, newTotalVotes] at hcheck
      simp only [voteOnProposal, findProposal, findBill, findGroup, findActiveMembership,
        findVote, hp', hb', hg', hm', hv', Bool.false_eq_true, reduceCtorEq, reduceIte,
        hcheck]
      constructor
      · rw [findById_updateById Proposal.id db.proposals pid pid
          (fun q => { q with votesAgainst := p.votesAgainst + 1 }) (fun a => rfl)]
        rw [hp']
        simp [hpid]
      · simp
    · simp [newVotesFor, newVotesAgainst, newTotalVotes] at hcheck
      simp only [voteOnProposal, findProposal, findBill, findGroup, findActiveMembership,
        findVote, hp', hb', hg', hm', hv', reduceCtorEq, reduceIte, hcheck]
      constructor
      · rw [findById_updateById Proposal.id db.proposals pid pid
          (fun q => { q with votesFor := p.votesFor + 1 }) (fun a => rfl)]
        rw [hp']
        simp [hpid]
      · simp

/-- Closed instance of C1, the spec's boundary case: proposal 20 already has
1 FOR vote; member 2 votes AGAINST, giving 1 FOR / 1 AGAINST, yesPercent 50
below the default threshold 51, so proposal and bill statuses are
untouched. -/
theorem claim_C1_witness :
    (findProposal sampleDb 20 = some proposal20
      ∧ findBill sampleDb proposal20.billId = some bill10
      ∧ findGroup sampleDb bill10.groupId = some grp1
      ∧ findActiveMembership sampleDb 2 bill10.groupId = some mem2
      ∧ findVote sampleDb 20 2 = none)
    ∧ (0 < newTotalVotes proposal20 false
      ∧ ((grp1.votingThreshold : ℚ) ≤
            yesPercent (newVotesFor proposal20 false) (newTotalVotes proposal20 false) →
          (findProposal (voteOnProposal sampleDb 2 20 false none).1 20).map Proposal.status
              = some ProposalStatus.APPROVED
          ∧ (findBill (voteOnProposal sampleDb 2 20 false none).1 proposal20.billId).map Bill.status
              = some BillStatus.APPROVED)
      ∧ (¬ (grp1.votingThreshold : ℚ) ≤
            yesPercent (newVotesFor proposal20 false) (newTotalVotes proposal20 false) →
          (findProposal (voteOnProposal sampleDb 2 20 false none).1 20).map Proposal.status
              = some proposal20.status
          ∧ (findBill (voteOnProposal sampleDb 2 20 false none).1 proposal20.billId).map Bill.status
              = some bill10.status)
      ∧ (∀ n : Nat, yesPercent n 0 = 0)) :=
  ⟨⟨by decide, by decide, by decide, by decide, by decide⟩,
    claim_C1_threshold_rule sampleDb 2 20 false none proposal20 bill10 grp1 mem2
      (by decide) (by decide) (by decide) (by decide) (by decide)⟩

/-- Shape of the store after a successful voteOnProposal run: the result is
the created Vote, the votes table gains exactly that row, members are
untouched, the target proposal's counters grew by exactly one, and the
proposal's bill is still present in its group. -/
theorem voteOnProposal_ok_state (db : DB) (u pid : Nat) (b : Bool) (c : Option String)
    (p : Proposal) (bill : Bill) (m : GroupMember)
    (hp : findProposal db pid = some p)
    (hb : findBill db p.billId = some bill)
    (hm : findActiveMembership db u bill.groupId = some m)
    (hv : findVote db pid u = none) :
    (voteOnProposal db u pid b c).2 =
        Except.ok { id := db.nextId, proposalId := pid, userId := u,
                    voteType := if b then VoteType.FOR else VoteType.AGAINST, comment := c }
    ∧ (voteOnProposal db u pid b c).1.votes =
        db.votes ++ [{ id := db.nextId, proposalId := pid, userId := u,
                       voteType := if b then VoteType.FOR else VoteType.AGAINST, comment := c }]
    ∧ (voteOnProposal db u pid b c).1.members = db.members
    ∧ (∃ q, findProposal (voteOnProposal db u pid b c).1 pid = some q
        ∧ q.billId = p.billId
        ∧ q.votesFor + q.votesAgainst + q.votesAbstain
            = p.votesFor + p.votesAgainst + p.votesAbstain + 1)
    ∧ (∃ bill2, findBill (voteOnProposal db u pid b c).1 p.billId = some bill2
        ∧ bill2.groupId = bill.groupId) := by
  have hpid : p.id = pid := (findById_eq_some Proposal.id hp).2
  have hbid : bill.id = p.billId := (findById_eq_some Bill.id hb).2
  have hp' : findById Proposal.id db.proposals pid = some p := hp
  have hb' : findById Bill.id db.bills p.billId = some bill := hb
  have hm' : db.members.find?
      (fun x => x.userId == u && x.groupId == bill.groupId && x.isActive) = some m := hm
  have hv' : db.votes.find? (fun v => v.proposalId == pid && v.userId == u) = none := hv
  cases b
  · simp only [voteOnProposal, findProposal, findBill, findGroup, findActiveMembership,
      findVote, hp', hb', hm', hv', Bool.false_eq_true, reduceCtorEq, reduceIte, approveWrites]
    rcases hG : findById Group.id db.groups bill.groupId with _ | g
    · refine ⟨by simp, by simp, by simp, ?_, ?_⟩
      · refine ⟨{ p with votesAgainst := p.votesAgainst + 1 }, ?_, rfl, by dsimp only; omega⟩
        rw [findById_updateById Proposal.id db.proposals pid pid
          (fun q => { q with votesAgainst := p.votesAgainst + 1 }) (fun a => rfl)]
        rw [hp']
        simp [hpid]
      · exact ⟨bill, hb', rfl⟩
    · rcases Bool.dichotomy (thresholdCheck p.votesFor
        (p.votesFor + (p.votesAgainst + 1) + p.votesAbstain) g.votingThreshold) with hth | hth
      · simp only [hth, Bool.false_eq_true, reduceIte]
        refine ⟨by simp, by simp, by simp, ?_, ?_⟩
        · refine ⟨{ p with votesAgainst := p.votesAgainst + 1 }, ?_, rfl, by dsimp only; omega⟩
          rw [findById_updateById Proposal.id db.proposals pid pid
            (fun q => { q with votesAgainst := p.votesAgainst + 1 }) (fun a => rfl)]
          rw [hp']
          simp [hpid]
        · exact ⟨bill, hb', rfl⟩
      · simp only [hth, reduceIte]
        refine ⟨by simp, by simp, by simp, ?_, ?_⟩
        · refine ⟨{ { p with votesAgainst := p.votesAgainst + 1 }
              with status := ProposalStatus.APPROVED }, ?_, rfl, by dsimp only; omega⟩
          rw [findById_updateById Proposal.id
            (updateById Proposal.id db.proposals pid
              (fun q => { q with votesAgainst := p.votesAgainst + 1 })) pid pid
            (fun q => { q with status := ProposalStatus.APPROVED }) (fun a => rfl)]
          rw [findById_updateById Proposal.id db.proposals pid pid
            (fun q => { q with votesAgainst := p.votesAgainst + 1 }) (fun a => rfl)]
          rw [hp']
          simp [hpid]
        · refine ⟨{ bill with status := BillStatus.APPROVED }, ?_, rfl⟩
          rw [findById_updateById Bill.id db.bills p.billId p.billId
            (fun q => { q with status := BillStatus.APPROVED }) (fun a => rfl)]
          rw [hb']
          simp [hbid]
  · simp only [voteOnProposal, findProposal, findBill, findGroup, findActiveMembership,
      findVote, hp', hb', hm', hv', reduceCtorEq, reduceIte, approveWrites]
    rcases hG : findById Group.id db.groups bill.groupId with _ | g
    · refine ⟨by simp, by simp, by simp, ?_, ?_⟩
      · refine ⟨{ p with votesFor := p.votesFor + 1 }, ?_, rfl, by dsimp only; omega⟩
        rw [findById_updateById Proposal.id db.proposals pid pid
          (fun q => { q with votesFor := p.votesFor + 1 }) (fun a => rfl)]
        rw [hp']
        simp [hpid]
      · exact ⟨bill, hb', rfl⟩
    · rcases Bool.dichotomy (thresholdCheck (p.votesFor + 1)
        (p.votesFor + 1 + p.votesAgainst + p.votesAbstain) g.votingThreshold) with hth | hth
      · simp only [hth, Bool.false_eq_true, reduceIte]
        refine ⟨by simp, by simp, by simp, ?_, ?_⟩
        · refine ⟨{ p with votesFor := p.votesFor + 1 }, ?_, rfl, by dsimp only; omega⟩
          rw [findById_updateById Proposal.id db.proposals pid pid
            (fun q => { q with votesFor := p.votesFor + 1 }) (fun a => rfl)]
          rw [hp']
          simp [hpid]
        · exact ⟨bill, hb', rfl⟩
      · simp only [hth, reduceIte]
        refine ⟨by simp, by simp, by simp, ?_, ?_⟩
        · refine ⟨{ { p with votesFor := p.votesFor + 1 }
              with status := ProposalStatus.APPROVED }, ?_, rfl, by dsimp only; omega⟩
          rw [findById_updateById Proposal.id
            (updateById Proposal.id db.proposals pid
              (fun q => { q with votesFor := p.votesFor + 1 })) pid pid
            (fun q => { q with status := ProposalStatus.APPROVED }) (fun a => rfl)]
          rw [findById_updateById Proposal.id db.proposals pid pid
            (fun q => { q with votesFor := p.votesFor + 1 }) (fun a => rfl)]
          rw [hp']
          simp [hpid]
        · refine ⟨{ bill with status := BillStatus.APPROVED }, ?_, rfl⟩
          rw [findById_updateById Bill.id db.bills p.billId p.billId
            (fun q => { q with status := BillStatus.APPROVED }) (fun a => rfl)]
          rw [hb']
          simp [hbid]

/-- C3: with proposal, membership and no prior vote in place, voting once
succeeds and voting again for the same (userId, proposalId) — with any
arguments — fails with the already-voted Conflict error and leaves the
store of the first call untouched; after both calls exactly one Vote row
exists for the pair and the proposal's counters grew by exactly 1, not 2. -/
theorem claim_C3_second_vote_conflicts (db : DB) (u pid : Nat) (b b2 : Bool)
    (c c2 : Option String) (p : Proposal) (bill : Bill) (m : GroupMember)
    (hp : findProposal db pid = some p)
    (hb : findBill db p.billId = some bill)
    (hm : findActiveMembership db u bill.groupId = some m)
    (hv : findVote db pid u = none) :
    (voteOnProposal db u pid b c).2 =
        Except.ok { id := db.nextId, proposalId := pid, userId := u,
                    voteType := if b then VoteType.FOR else VoteType.AGAINST, comment := c }
    ∧ voteOnProposal (voteOnProposal db u pid b c).1 u pid b2 c2 =
        ((voteOnProposal db u pid b c).1,
          Except.error (SvcError.conflict "You have already voted on this proposal"))
    ∧ ((voteOnProposal db u pid b c).1.votes.filter
        (fun v => v.proposalId == pid && v.userId == u)).length = 1
    ∧ (∃ q, findProposal (voteOnProposal db u pid b c).1 pid = some q
        ∧ q.votesFor + q.votesAgainst + q.votesAbstain
            = p.votesFor + p.votesAgainst + p.votesAbstain + 1) := by
  obtain ⟨hok, hvotes, hmembers, ⟨q, hq, hqbill, hqsum⟩, ⟨bill2, hbill2, hgid2⟩⟩ :=
    voteOnProposal_ok_state db u pid b c p bill m hp hb hm hv
  set r1 := voteOnProposal db u pid b c with hr1
  have hv' : db.votes.find? (fun v => v.proposalId == pid && v.userId == u) = none := hv
  have hfv : findVote r1.1 pid u =
      some { id := db.nextId, proposalId := pid, userId := u,
             voteType := if b then VoteType.FOR else VoteType.AGAINST, comment := c } := by
    unfold findVote
    rw [hvotes, List.find?_append, hv', Option.none_or]
    simp
  have hm2 : findActiveMembership r1.1 u bill2.groupId = some m := by
    unfold findActiveMembership
    rw [hmembers, hgid2]
    exact hm
  refine ⟨hok, ?_, ?_, ⟨q, hq, hqsum⟩⟩
  · simp only [voteOnProposal, hq, hqbill, hbill2, hm2, hfv]
  · rw [hvotes, List.filter_append]
    have hnil : db.votes.filter (fun v => v.proposalId == pid && v.userId == u) = [] := by
      rw [List.filter_eq_nil_iff]
      intro a ha
      have := List.find?_eq_none.mp hv' a ha
      exact fun hcontra => this hcontra
    rw [hnil]
    simp

/-- Closed instance of C3: member 3 votes FOR on proposal 20 and then tries
again. -/
theorem claim_C3_witness :
    (findProposal sampleDb 20 = some proposal20
      ∧ findBill sampleDb proposal20.billId = some bill10
      ∧ findActiveMembership sampleDb 3 bill10.groupId = some mem3
      ∧ findVote sampleDb 20 3 = none)
    ∧ ((voteOnProposal sampleDb 3 20 true none).2 =
        Except.ok { id := sampleDb.nextId, proposalId := 20, userId := 3,
                    voteType := if true then VoteType.FOR else VoteType.AGAINST, comment := none }
      ∧ voteOnProposal (voteOnProposal sampleDb 3 20 true none).1 3 20 false (some "changed my mind") =
          ((voteOnProposal sampleDb 3 20 true none).1,
            Except.error (SvcError.conflict "You have already voted on this proposal"))
      ∧ ((voteOnProposal sampleDb 3 20 true none).1.votes.filter
          (fun v => v.proposalId == 20 && v.userId == 3)).length = 1
      ∧ (∃ q, findProposal (voteOnProposal sampleDb 3 20 true none).1 20 = some q
          ∧ q.votesFor + q.votesAgainst + q.votesAbstain
              = proposal20.votesFor + proposal20.votesAgainst + proposal20.votesAbstain + 1)) :=
  ⟨⟨by decide, by decide, by decide, by decide⟩,
    claim_C3_second_vote_conflicts sampleDb 3 20 true false none (some "changed my mind")
      proposal20 bill10 mem3 (by decide) (by decide) (by decide) (by decide)⟩

theorem forall2_updateById {α : Type} (getId : α → Nat) {R : α → α → Prop}
    (l : List α) (i : Nat) (f : α → α)
    (hrefl : ∀ a, R a a) (hf : ∀ a, R a (f a)) :
    List.Forall₂ R l (updateById getId l i f) := by
  apply forall2_map_self
  intro a _
  by_cases h : getId a = i
  · rw [if_pos h]; exact hf a
  · rw [if_neg h]; exact hrefl a

/-- C9 (amended): voteOnProposal never writes REJECTED or any status other
than APPROVED — every proposal row and every bill row either keeps its
status or ends APPROVED.  The claim's stronger reading, that the only
possible transition is PENDING to APPROVED and that AGAINST votes never
change a status, is refuted by the counterexample below: the approval step
re-fires on whatever the current status is whenever the threshold condition
holds after any vote. -/
theorem claim_C9_only_approved_is_written (db : DB) (u pid : Nat) (b : Bool)
    (c : Option String) :
    List.Forall₂ (fun p q => q.status = p.status ∨ q.status = ProposalStatus.APPROVED)
        db.proposals (voteOnProposal db u pid b c).1.proposals
    ∧ List.Forall₂ (fun x y => y.status = x.status ∨ y.status = BillStatus.APPROVED)
        db.bills (voteOnProposal db u pid b c).1.bills := by
  simp only [voteOnProposal, approveWrites]
  repeat' split
  all_goals dsimp only
  all_goals refine ⟨?_, ?_⟩
  all_goals first
  | exact forall2_refl (fun a _ => Or.inl rfl)
  | (simp only [updateById, List.map_map]
     apply forall2_map_self
     intro a _
     dsimp only [Function.comp]
     first
     | exact Or.inl rfl
     | exact Or.inr rfl
     | (split_ifs <;> first | exact Or.inl rfl | exact Or.inr rfl))

/-- Proposal row of the C9 counterexample: already EXECUTED with three FOR
votes tallied. -/
def cex9Proposal : Proposal :=
  { id := 20, billId := 10, groupId := 1, createdBy := 1, title := "Rent"
    description := none, status := ProposalStatus.EXECUTED, votesFor := 3
    votesAgainst := 0, votesAbstain := 0, votingDeadline := 1000, executedAt := some 500 }

/-- Store of the C9 counterexample. -/
def cex9Db : DB :=
  { nextId := 40
    groups := [grp1]
    members := [mem1, mem2, mem3, mem4]
    bills := [bill10]
    proposals := [cex9Proposal]
    votes := [{ id := 31, proposalId := 20, userId := 1, voteType := VoteType.FOR, comment := none },
              { id := 32, proposalId := 20, userId := 2, voteType := VoteType.FOR, comment := none },
              { id := 33, proposalId := 20, userId := 3, voteType := VoteType.FOR, comment := none }] }

/-- C9 counterexample: an AGAINST vote by member 4 on the already-EXECUTED
proposal 20 (3 FOR, 0 AGAINST) makes the tally 3 FOR / 1 AGAINST, yesPercent
75 which still clears the threshold 51, so the vote call rewrites the
proposal status from EXECUTED back to APPROVED — a transition other than
PENDING to APPROVED, triggered by an AGAINST vote. -/
theorem claim_C9_counterexample :
    (findProposal cex9Db 20).map Proposal.status = some ProposalStatus.EXECUTED
    ∧ (voteOnProposal cex9Db 4 20 false none).2 =
        Except.ok { id := 40, proposalId := 20, userId := 4,
                    voteType := VoteType.AGAINST, comment := none }
    ∧ (findProposal (voteOnProposal cex9Db 4 20 false none).1 20).map Proposal.status
        = some ProposalStatus.APPROVED := by
  refine ⟨by decide, ?_, ?_⟩ <;>
    (simp only [voteOnProposal, thresholdCheck_eq]; decide)

/-- C5 (amended): with the bill DRAFT, the caller an active member, ids
fresh and no proposal yet on the bill, createProposal succeeds: the final
store holds the new proposal with status PENDING, zero counters and the
given deadline, and the bill marked PROPOSED.  But the proposal insert and
the bill update are two separate store writes, so there is a committed
intermediate state — insertProposalWrite alone — in which the proposal
already exists while the bill is still DRAFT. -/
theorem claim_C5_two_separate_writes (db : DB) (u : Nat) (d : CreateProposalInput)
    (bill : Bill) (m : GroupMember)
    (hb : findBill db d.billId = some bill)
    (hm : findActiveMembership db u bill.groupId = some m)
    (hdraft : bill.status = BillStatus.DRAFT)
    (hfresh : ∀ p ∈ db.proposals, p.id < db.nextId)
    (hfirst : db.proposals.any (fun p => p.billId == bill.id) = false) :
    createProposal db u d =
        (markBillProposedWrite (insertProposalWrite db (builtProposal db u d bill)) bill.id,
          Except.ok (builtProposal db u d bill))
    ∧ (builtProposal db u d bill).status = ProposalStatus.PENDING
    ∧ (builtProposal db u d bill).votesFor = 0
    ∧ (builtProposal db u d bill).votesAgainst = 0
    ∧ (builtProposal db u d bill).votesAbstain = 0
    ∧ (builtProposal db u d bill).votingDeadline = d.votingDeadline
    ∧ findProposal (createProposal db u d).1 db.nextId = some (builtProposal db u d bill)
    ∧ (findBill (createProposal db u d).1 d.billId).map Bill.status = some BillStatus.PROPOSED
    ∧ findProposal (insertProposalWrite db (builtProposal db u d bill)) db.nextId
        = some (builtProposal db u d bill)
    ∧ (findBill (insertProposalWrite db (builtProposal db u d bill)) d.billId).map Bill.status
        = some BillStatus.DRAFT := by
  have hbid : bill.id = d.billId := (findById_eq_some Bill.id hb).2
  have hb' : findById Bill.id db.bills d.billId = some bill := hb
  have hrun : createProposal db u d =
      (markBillProposedWrite (insertProposalWrite db (builtProposal db u d bill)) bill.id,
        Except.ok (builtProposal db u d bill)) := by
    simp only [createProposal, findBill, hb', hm]
    rw [if_neg (by simp [hdraft]), if_neg (by simp [hfirst])]
  have hnone : findById Proposal.id db.proposals db.nextId = none := by
    unfold findById
    rw [List.find?_eq_none]
    intro p hp hcontra
    have : p.id = db.nextId := by simpa using hcontra
    exact absurd (this ▸ hfresh p hp) (lt_irrefl _)
  have hmid_prop : findProposal (insertProposalWrite db (builtProposal db u d bill)) db.nextId
      = some (builtProposal db u d bill) := by
    unfold findProposal insertProposalWrite
    show findById Proposal.id (db.proposals ++ [builtProposal db u d bill]) db.nextId = _
    rw [findById_append_of_none Proposal.id hnone]
    simp [findById, builtProposal]
  have hmid_bill : (findBill (insertProposalWrite db (builtProposal db u d bill)) d.billId).map
      Bill.status = some BillStatus.DRAFT := by
    unfold findBill insertProposalWrite
    show (findById Bill.id db.bills d.billId).map Bill.status = _
    rw [hb']
    simp [hdraft]
  refine ⟨hrun, rfl, rfl, rfl, rfl, rfl, ?_, ?_, hmid_prop, hmid_bill⟩
  · rw [hrun]
    show findProposal (markBillProposedWrite (insertProposalWrite db (builtProposal db u d bill))
      bill.id) db.nextId = _
    unfold findProposal markBillProposedWrite
    exact hmid_prop
  · rw [hrun]
    show (findBill (markBillProposedWrite (insertProposalWrite db (builtProposal db u d bill))
      bill.id) d.billId).map Bill.status = _
    unfold findBill markBillProposedWrite insertProposalWrite
    rw [findById_updateById Bill.id db.bills bill.id d.billId
      (fun b => { b with status := BillStatus.PROPOSED }) (fun a => rfl)]
    rw [hb']
    simp [hbid]

/-- Input of the C5 scenario. -/
def cex5Input : CreateProposalInput :=
  { billId := 11, title := "Pay internet", description := none, votingDeadline := 2000 }

/-- C5 counterexample to atomicity: creating a proposal on the DRAFT bill 11
is the composition of two separately committed writes, and after the first
one (the proposal insert) the proposal row exists while bill 11 is still
DRAFT — the intermediate state the claim says is never observable. -/
theorem claim_C5_counterexample :
    createProposal sampleDb 2 cex5Input =
        (markBillProposedWrite (insertProposalWrite sampleDb
          (builtProposal sampleDb 2 cex5Input bill11)) 11,
          Except.ok (builtProposal sampleDb 2 cex5Input bill11))
    ∧ findProposal (insertProposalWrite sampleDb (builtProposal sampleDb 2 cex5Input bill11)) 40
        = some (builtProposal sampleDb 2 cex5Input bill11)
    ∧ (findBill (insertProposalWrite sampleDb (builtProposal sampleDb 2 cex5Input bill11)) 11).map
        Bill.status = some BillStatus.DRAFT := by
  refine ⟨by decide, by decide, by decide⟩

/-- Closed instance of the amended C5: member 2 proposes the DRAFT bill 11
of the sample store. -/
theorem claim_C5_witness :
    (findBill sampleDb 11 = some bill11
      ∧ findActiveMembership sampleDb 2 bill11.groupId = some mem2
      ∧ bill11.status = BillStatus.DRAFT
      ∧ (∀ p ∈ sampleDb.proposals, p.id < sampleDb.nextId)
      ∧ sampleDb.proposals.any (fun p => p.billId == bill11.id) = false)
    ∧ (createProposal sampleDb 2 cex5Input =
        (markBillProposedWrite (insertProposalWrite sampleDb
          (builtProposal sampleDb 2 cex5Input bill11)) bill11.id,
          Except.ok (builtProposal sampleDb 2 cex5Input bill11))
      ∧ (builtProposal sampleDb 2 cex5Input bill11).status = ProposalStatus.PENDING
      ∧ (builtProposal sampleDb 2 cex5Input bill11).votesFor = 0
      ∧ (builtProposal sampleDb 2 cex5Input bill11).votesAgainst = 0
      ∧ (builtProposal sampleDb 2 cex5Input bill11).votesAbstain = 0
      ∧ (builtProposal sampleDb 2 cex5Input bill11).votingDeadline = cex5Input.votingDeadline
      ∧ findProposal (createProposal sampleDb 2 cex5Input).1 sampleDb.nextId
          = some (builtProposal sampleDb 2 cex5Input bill11)
      ∧ (findBill (createProposal sampleDb 2 cex5Input).1 cex5Input.billId).map Bill.status
          = some BillStatus.PROPOSED
      ∧ findProposal (insertProposalWrite sampleDb
          (builtProposal sampleDb 2 cex5Input bill11)) sampleDb.nextId
          = some (builtProposal sampleDb 2 cex5Input bill11)
      ∧ (findBill (insertProposalWrite sampleDb
          (builtProposal sampleDb 2 cex5Input bill11)) cex5Input.billId).map Bill.status
          = some BillStatus.DRAFT) :=
  ⟨⟨by decide, by decide, by decide, by decide, by decide⟩,
    claim_C5_two_separate_writes sampleDb 2 cex5Input bill11 mem2
      (by decide) (by decide) (by decide) (by decide) (by decide)⟩

/-- Input of the C8 scenarios. -/
def cex8Input : CreateBillInput :=
  { groupId := 1, title := "Sneaky bill", description := none, totalAmount := 100
    currency := none, dueDate := none, payeeAddress := "0xbad", categoryId := none
    attachmentUrl := none
    items := some [{ description := "thing", amount := 100, quantity := none }] }

/-- C8 counterexample: the createBill service function itself performs no
membership check — called directly by user 9, who is not a member of
group 1, it succeeds and persists the bill, instead of failing with an
Unauthorized error and persisting nothing. -/
theorem claim_C8_counterexample :
    findActiveMembership sampleDb 9 1 = none
    ∧ (createBill sampleDb 9 cex8Input).2 = Except.ok (builtBill sampleDb 9 cex8Input)
    ∧ findBill (createBill sampleDb 9 cex8Input).1 40 = some (builtBill sampleDb 9 cex8Input)
    ∧ (builtBill sampleDb 9 cex8Input).createdBy = 9 := by
  refine ⟨by decide, by decide, by decide, by decide⟩

/-- C8 (amended): bill-creation authorization lives in the route middleware,
not in the service: on POST /api/bills a caller without an active
membership row for the body's groupId is rejected by requireGroupMembership
with the 403 Forbidden response (not an Unauthorized one) before the
handler runs, and nothing is persisted; an active member whose required
fields are non-falsy gets the bill persisted in status DRAFT with its
nested items in the one createBill write. -/
theorem claim_C8_route_membership_guard (db : DB) (u : Nat) (input : CreateBillInput) :
    (findActiveMembership db u input.groupId = none →
      postBill db u input =
        (db, Except.error (SvcError.forbidden "You are not a member of this group")))
    ∧ (∀ m2, findActiveMembership db u input.groupId = some m2 →
        input.title ≠ "" → input.totalAmount ≠ 0 → input.payeeAddress ≠ "" →
        postBill db u input =
          ({ db with nextId := db.nextId + 1, bills := db.bills ++ [builtBill db u input] },
            Except.ok (builtBill db u input))
        ∧ (builtBill db u input).status = BillStatus.DRAFT
        ∧ (builtBill db u input).items = builtItems input.items) := by
  constructor
  · intro hnone
    simp only [postBill, hnone]
  · intro m2 hm2 htitle hamount hpayee
    refine ⟨?_, rfl, rfl⟩
    simp only [postBill, hm2, createBillHandler]
    rw [if_neg (by simp [htitle, hamount, hpayee])]
    rfl

/-- Closed instance of the amended C8: non-member 9 is rejected by the
membership middleware with the Forbidden response; member 2 posts the same
bill and it is persisted as DRAFT with its items. -/
theorem claim_C8_witness :
    (findActiveMembership sampleDb 9 cex8Input.groupId = none
      ∧ findActiveMembership sampleDb 2 cex8Input.groupId = some mem2
      ∧ cex8Input.title ≠ "" ∧ cex8Input.totalAmount ≠ 0 ∧ cex8Input.payeeAddress ≠ "")
    ∧ postBill sampleDb 9 cex8Input =
        (sampleDb, Except.error (SvcError.forbidden "You are not a member of this group"))
    ∧ (postBill sampleDb 2 cex8Input =
        ({ sampleDb with nextId := sampleDb.nextId + 1, bills := sampleDb.bills ++ [builtBill sampleDb 2 cex8Input] },
          Except.ok (builtBill sampleDb 2 cex8Input))
      ∧ (builtBill sampleDb 2 cex8Input).status = BillStatus.DRAFT
      ∧ (builtBill sampleDb 2 cex8Input).items = builtItems cex8Input.items) :=
  ⟨⟨by decide, by decide, by decide, by decide, by decide⟩,
    (claim_C8_route_membership_guard sampleDb 9 cex8Input).1 (by decide),
    (claim_C8_route_membership_guard sampleDb 2 cex8Input).2 mem2
      (by decide) (by decide) (by decide) (by decide)⟩

/-- Sum of the three denormalized counters of a proposal row. -/
def countersSum (p : Proposal) : Nat :=
  p.votesFor + p.votesAgainst + p.votesAbstain

/-- Number of Vote rows whose proposalId is the given id. -/
def voteCount (votes : List Vote) (pid : Nat) : Nat :=
  (votes.filter (fun v => v.proposalId == pid)).length

/-- The C6 invariant: every proposal's counters sum to the number of its
Vote rows. -/
def CountersMatch (db : DB) : Prop :=
  ∀ p ∈ db.proposals, countersSum p = voteCount db.votes p.id

/-- Structural well-formedness the store guarantees: primary-key uniqueness
of proposal ids, freshness of the id counter, and the votes→proposals
foreign key. -/
def StoreWF (db : DB) : Prop :=
  (db.proposals.map Proposal.id).Nodup
  ∧ (∀ p ∈ db.proposals, p.id < db.nextId)
  ∧ (∀ v ∈ db.votes, ∃ p ∈ db.proposals, p.id = v.proposalId)

theorem map_id_updateById {α : Type} (getId : α → Nat) (l : List α) (i : Nat) (f : α → α)
    (hf : ∀ a, getId (f a) = getId a) :
    (updateById getId l i f).map getId = l.map getId := by
  unfold updateById
  rw [List.map_map]
  apply List.map_congr_left
  intro a _
  show getId (if getId a = i then f a else a) = getId a
  by_cases h : getId a = i
  · rw [if_pos h, hf]
  · rw [if_neg h]

theorem updateById_updateById {α : Type} (getId : α → Nat) (l : List α) (i : Nat)
    (f1 f2 : α → α) (hf1 : ∀ a, getId (f1 a) = getId a) :
    updateById getId (updateById getId l i f1) i f2
      = updateById getId l i (fun a => f2 (f1 a)) := by
  unfold updateById
  rw [List.map_map]
  apply List.map_congr_left
  intro a _
  show (if getId (if getId a = i then f1 a else a) = i
        then f2 (if getId a = i then f1 a else a)
        else (if getId a = i then f1 a else a)) = if getId a = i then f2 (f1 a) else a
  by_cases h : getId a = i
  · simp [h, hf1]
  · simp [h]

theorem findById_unique {α : Type} (getId : α → Nat) {l : List α}
    (hnd : (l.map getId).Nodup) {i : Nat} {p a : α}
    (hp : findById getId l i = some p) (ha : a ∈ l) (hai : getId a = i) : a = p := by
  obtain ⟨hmem, hpi⟩ := findById_eq_some getId hp
  exact List.inj_on_of_nodup_map hnd ha hmem (by rw [hai, hpi])

theorem voteCount_append_single (votes : List Vote) (w : Vote) (j : Nat) :
    voteCount (votes ++ [w]) j = voteCount votes j + (if w.proposalId = j then 1 else 0) := by
  unfold voteCount
  rw [List.filter_append, List.length_append]
  congr 1
  by_cases h : w.proposalId = j <;> simp [h]

/-- Effect of one vote on the proposals and votes tables: the invariant and
the structural facts survive inserting a vote for proposal pid while a row
update bumps that proposal's counter sum by exactly one. -/
theorem vote_lists_preserve (ps : List Proposal) (vs : List Vote) (n pid : Nat)
    (p : Proposal) (w : Vote) (f : Proposal → Proposal)
    (hnd : (ps.map Proposal.id).Nodup)
    (hlt : ∀ q ∈ ps, q.id < n)
    (href : ∀ v ∈ vs, ∃ q ∈ ps, q.id = v.proposalId)
    (hc : ∀ q ∈ ps, countersSum q = voteCount vs q.id)
    (hfp : findById Proposal.id ps pid = some p)
    (hw : w.proposalId = pid)
    (hfid : ∀ a, (f a).id = a.id)
    (hfsum : countersSum (f p) = countersSum p + 1) :
    ((updateById Proposal.id ps pid f).map Proposal.id).Nodup
    ∧ (∀ q ∈ updateById Proposal.id ps pid f, q.id < n + 1)
    ∧ (∀ v ∈ vs ++ [w], ∃ q ∈ updateById Proposal.id ps pid f, q.id = v.proposalId)
    ∧ (∀ q ∈ updateById Proposal.id ps pid f, countersSum q = voteCount (vs ++ [w]) q.id) := by
  have hppid : p.id = pid := (findById_eq_some Proposal.id hfp).2
  have hpmem : p ∈ ps := (findById_eq_some Proposal.id hfp).1
  refine ⟨?_, ?_, ?_, ?_⟩
  · rw [map_id_updateById Proposal.id ps pid f hfid]
    exact hnd
  · intro q hq
    obtain ⟨a, ha, rfl⟩ := mem_updateById Proposal.id hq
    have : a.id < n := hlt a ha
    by_cases h : a.id = pid <;> simp [h, hfid] <;> omega
  · intro v hv
    rcases List.mem_append.mp hv with hold | hnew
    · obtain ⟨q, hq, hqid⟩ := href v hold
      refine ⟨if q.id = pid then f q else q, List.mem_map_of_mem _ hq, ?_⟩
      by_cases h : q.id = pid
      · rw [if_pos h, hfid]; exact hqid
      · rw [if_neg h]; exact hqid
    · have hvw : v = w := by simpa using hnew
      refine ⟨if p.id = pid then f p else p, List.mem_map_of_mem _ hpmem, ?_⟩
      rw [if_pos hppid, hfid, hppid, hvw, hw]
  · intro q hq
    obtain ⟨a, ha, rfl⟩ := mem_updateById Proposal.id hq
    by_cases h : a.id = pid
    · have hap : a = p := findById_unique Proposal.id hnd hfp ha h
      subst hap
      rw [if_pos h, hfsum, hc a ha, hfid, h, voteCount_append_single, if_pos hw]
    · rw [if_neg h, voteCount_append_single, if_neg (by rw [hw]; exact fun hc2 => h hc2.symm)]
      rw [hc a ha]
      omega

theorem createProposal_preserves (db : DB) (u : Nat) (d : CreateProposalInput)
    (hwf : StoreWF db) (hc : CountersMatch db) :
    StoreWF (createProposal db u d).1 ∧ CountersMatch (createProposal db u d).1 := by
  obtain ⟨hnd, hlt, href⟩ := hwf
  rcases hfb : findBill db d.billId with _ | bill
  · simp only [createProposal, hfb]
    exact ⟨⟨hnd, hlt, href⟩, hc⟩
  rcases hfm : findActiveMembership db u bill.groupId with _ | mm
  · simp only [createProposal, hfb, hfm]
    exact ⟨⟨hnd, hlt, href⟩, hc⟩
  by_cases hst : bill.status ≠ BillStatus.DRAFT
  · simp only [createProposal, hfb, hfm, if_pos hst]
    exact ⟨⟨hnd, hlt, href⟩, hc⟩
  cases hany : db.proposals.any (fun p => p.billId == bill.id) with
  | true =>
    simp only [createProposal, hfb, hfm, if_neg hst, hany, if_true]
    exact ⟨⟨hnd, hlt, href⟩, hc⟩
  | false =>
    simp only [createProposal, hfb, hfm, if_neg hst, hany, Bool.false_eq_true, reduceIte,
      markBillProposedWrite, insertProposalWrite]
    constructor
    · refine ⟨?_, ?_, ?_⟩
      · show (((db.proposals ++ [builtProposal db u d bill]).map Proposal.id)).Nodup
        rw [List.map_append, List.nodup_append]
        refine ⟨hnd, List.nodup_singleton _, ?_⟩
        intro x hx hx2
        obtain ⟨q, hq, rfl⟩ := List.mem_map.mp hx
        have h1 : q.id < db.nextId := hlt q hq
        have h2 : q.id = db.nextId := by simpa [builtProposal] using hx2
        omega
      · intro q hq
        rcases List.mem_append.mp hq with hql | hqr
        · exact Nat.lt_succ_of_lt (hlt q hql)
        · have hq2 : q = builtProposal db u d bill := by simpa using hqr
          subst hq2
          show (builtProposal db u d bill).id < db.nextId + 1
          simp [builtProposal]
      · intro v hv
        obtain ⟨q, hq, hqid⟩ := href v hv
        exact ⟨q, List.mem_append_left _ hq, hqid⟩
    · intro q hq
      rcases List.mem_append.mp hq with hql | hqr
      · exact hc q hql
      · have hq2 : q = builtProposal db u d bill := by simpa using hqr
        subst hq2
        have hzero : voteCount db.votes db.nextId = 0 := by
          unfold voteCount
          have hfil : db.votes.filter (fun v => v.proposalId == db.nextId) = [] := by
            rw [List.filter_eq_nil_iff]
            intro v hv hcontra
            obtain ⟨q2, hq2, hq2id⟩ := href v hv
            have h1 : v.proposalId = db.nextId := by simpa using hcontra
            have h2 : q2.id < db.nextId := hlt q2 hq2
            omega
          rw [hfil]
          rfl
        show countersSum (builtProposal db u d bill)
          = voteCount db.votes (builtProposal db u d bill).id
        simp [builtProposal, countersSum, hzero]

theorem executeProposal_preserves (db : DB) (u pid : Nat) (now : Int)
    (hwf : StoreWF db) (hc : CountersMatch db) :
    StoreWF (executeProposal db u pid now).1 ∧ CountersMatch (executeProposal db u pid now).1 := by
  obtain ⟨hnd, hlt, href⟩ := hwf
  rcases hfp : findProposal db pid with _ | p
  · simp only [executeProposal, hfp]
    exact ⟨⟨hnd, hlt, href⟩, hc⟩
  rcases hfb : findBill db p.billId with _ | bill
  · simp only [executeProposal, hfp, hfb]
    exact ⟨⟨hnd, hlt, href⟩, hc⟩
  rcases hfm : findActiveMembership db u bill.groupId with _ | mm
  · simp only [executeProposal, hfp, hfb, hfm]
    exact ⟨⟨hnd, hlt, href⟩, hc⟩
  simp only [executeProposal, hfp, hfb, hfm]
  constructor
  · refine ⟨?_, ?_, ?_⟩
    · show ((updateById Proposal.id db.proposals pid
        (fun q => { q with status := ProposalStatus.EXECUTED, executedAt := some now })).map
          Proposal.id).Nodup
      rw [map_id_updateById Proposal.id db.proposals pid
        (fun q => { q with status := ProposalStatus.EXECUTED, executedAt := some now })
        (fun a => rfl)]
      exact hnd
    · intro q hq
      obtain ⟨a, ha, rfl⟩ := mem_updateById Proposal.id hq
      by_cases h : a.id = pid
      · rw [if_pos h]
        exact hlt a ha
      · rw [if_neg h]
        exact hlt a ha
    · intro v hv
      obtain ⟨q, hq, hqid⟩ := href v hv
      refine ⟨if q.id = pid
          then { q with status := ProposalStatus.EXECUTED, executedAt := some now } else q,
        List.mem_map_of_mem _ hq, ?_⟩
      by_cases h : q.id = pid
      · rw [if_pos h]
        exact hqid
      · rw [if_neg h]
        exact hqid
  · intro q hq
    obtain ⟨a, ha, rfl⟩ := mem_updateById Proposal.id hq
    by_cases h : a.id = pid
    · rw [if_pos h]
      exact hc a ha
    · rw [if_neg h]
      exact hc a ha

theorem voteOnProposal_preserves (db : DB) (u pid : Nat) (b : Bool) (c : Option String)
    (hwf : StoreWF db) (hc : CountersMatch db) :
    StoreWF (voteOnProposal db u pid b c).1 ∧ CountersMatch (voteOnProposal db u pid b c).1 := by
  obtain ⟨hnd, hlt, href⟩ := hwf
  rcases hfp : findProposal db pid with _ | p
  · simp only [voteOnProposal, hfp]
    exact ⟨⟨hnd, hlt, href⟩, hc⟩
  rcases hfb : findBill db p.billId with _ | bill
  · simp only [voteOnProposal, hfp, hfb]
    exact ⟨⟨hnd, hlt, href⟩, hc⟩
  rcases hfm : findActiveMembership db u bill.groupId with _ | mm
  · simp only [voteOnProposal, hfp, hfb, hfm]
    exact ⟨⟨hnd, hlt, href⟩, hc⟩
  rcases hfv : findVote db pid u with _ | v0
  case some =>
    simp only [voteOnProposal, hfp, hfb, hfm, hfv]
    exact ⟨⟨hnd, hlt, href⟩, hc⟩
  have hfp2 : findById Proposal.id db.proposals pid = some p := hfp
  cases b
  case false =>
    simp only [voteOnProposal, hfp, hfb, hfm, hfv, findGroup, Bool.false_eq_true,
      reduceCtorEq, reduceIte]
    rcases hG : findById Group.id db.groups bill.groupId with _ | g
    · simp only [hG]
      obtain ⟨A, B, C, D⟩ := vote_lists_preserve db.proposals db.votes db.nextId pid p
          { id := db.nextId, proposalId := pid, userId := u, voteType := VoteType.AGAINST, comment := c }
          (fun q => { q with votesAgainst := p.votesAgainst + 1 }) hnd hlt href hc hfp2 rfl (fun a => rfl)
          (by simp [countersSum]; omega)
      exact ⟨⟨A, B, C⟩, D⟩
    · simp only [hG]
      rcases Bool.dichotomy (thresholdCheck p.votesFor (p.votesFor + (p.votesAgainst + 1) + p.votesAbstain) g.votingThreshold) with hth | hth
      · simp only [hth, Bool.false_eq_true, reduceIte]
        obtain ⟨A, B, C, D⟩ := vote_lists_preserve db.proposals db.votes db.nextId pid p
            { id := db.nextId, proposalId := pid, userId := u, voteType := VoteType.AGAINST, comment := c }
            (fun q => { q with votesAgainst := p.votesAgainst + 1 }) hnd hlt href hc hfp2 rfl (fun a => rfl)
            (by simp [countersSum]; omega)
        exact ⟨⟨A, B, C⟩, D⟩
      · simp only [hth, reduceIte, approveWrites]
        rw [updateById_updateById Proposal.id db.proposals pid
          (fun q => { q with votesAgainst := p.votesAgainst + 1 }) (fun q => { q with status := ProposalStatus.APPROVED }) (fun a => rfl)]
        obtain ⟨A, B, C, D⟩ := vote_lists_preserve db.proposals db.votes db.nextId pid p
            { id := db.nextId, proposalId := pid, userId := u, voteType := VoteType.AGAINST, comment := c }
            (fun q => { { q with votesAgainst := p.votesAgainst + 1 } with status := ProposalStatus.APPROVED }) hnd hlt href hc hfp2 rfl (fun a => rfl)
            (by simp [countersSum]; omega)
        exact ⟨⟨A, B, C⟩, D⟩
  case true =>
    simp only [voteOnProposal, hfp, hfb, hfm, hfv, findGroup, Bool.false_eq_true,
      reduceCtorEq, reduceIte]
    rcases hG : findById Group.id db.groups bill.groupId with _ | g
    · simp only [hG]
      obtain ⟨A, B, C, D⟩ := vote_lists_preserve db.proposals db.votes db.nextId pid p
          { id := db.nextId, proposalId := pid, userId := u, voteType := VoteType.FOR, comment := c }
          (fun q => { q with votesFor := p.votesFor + 1 }) hnd hlt href hc hfp2 rfl (fun a => rfl)
          (by simp [countersSum]; omega)
      exact ⟨⟨A, B, C⟩, D⟩
    · simp only [hG]
      rcases Bool.dichotomy (thresholdCheck (p.votesFor + 1) (p.votesFor + 1 + p.votesAgainst + p.votesAbstain) g.votingThreshold) with hth | hth
      · simp only [hth, Bool.false_eq_true, reduceIte]
        obtain ⟨A, B, C, D⟩ := vote_lists_preserve db.proposals db.votes db.nextId pid p
            { id := db.nextId, proposalId := pid, userId := u, voteType := VoteType.FOR, comment := c }
            (fun q => { q with votesFor := p.votesFor + 1 }) hnd hlt href hc hfp2 rfl (fun a => rfl)
            (by simp [countersSum]; omega)
        exact ⟨⟨A, B, C⟩, D⟩
      · simp only [hth, reduceIte, approveWrites]
        rw [updateById_updateById Proposal.id db.proposals pid
          (fun q => { q with votesFor := p.votesFor + 1 }) (fun q => { q with status := ProposalStatus.APPROVED }) (fun a => rfl)]
        obtain ⟨A, B, C, D⟩ := vote_lists_preserve db.proposals db.votes db.nextId pid p
            { id := db.nextId, proposalId := pid, userId := u, voteType := VoteType.FOR, comment := c }
            (fun q => { { q with votesFor := p.votesFor + 1 } with status := ProposalStatus.APPROVED }) hnd hlt href hc hfp2 rfl (fun a => rfl)
            (by simp [countersSum]; omega)
        exact ⟨⟨A, B, C⟩, D⟩

/-- C6: the denormalized counters never drift from the vote rows — from any
store satisfying the structural well-formedness (unique proposal ids, fresh
id counter, votes referencing proposals) and the counters-equal-votes
invariant, each of createProposal, voteOnProposal and executeProposal
returns a store satisfying both again, so sequential execution of these
operations keeps votesFor + votesAgainst + votesAbstain equal to the count
of the proposal's Vote rows. -/
theorem claim_C6_counters_equal_vote_rows (db : DB)
    (hwf : StoreWF db) (hc : CountersMatch db) :
    (∀ u d, StoreWF (createProposal db u d).1 ∧ CountersMatch (createProposal db u d).1)
    ∧ (∀ u pid b c, StoreWF (voteOnProposal db u pid b c).1
        ∧ CountersMatch (voteOnProposal db u pid b c).1)
    ∧ (∀ u pid now, StoreWF (executeProposal db u pid now).1
        ∧ CountersMatch (executeProposal db u pid now).1) :=
  ⟨fun u d => createProposal_preserves db u d hwf hc,
   fun u pid b c => voteOnProposal_preserves db u pid b c hwf hc,
   fun u pid now => executeProposal_preserves db u pid now hwf hc⟩

/-- Closed instance of C6: the sample store satisfies the invariant
(proposal 20 has counters 1,0,0 and exactly one Vote row) and keeps it
after member 2 votes. -/
theorem claim_C6_witness :
    (StoreWF sampleDb ∧ CountersMatch sampleDb)
    ∧ (StoreWF (voteOnProposal sampleDb 2 20 false none).1
      ∧ CountersMatch (voteOnProposal sampleDb 2 20 false none).1) :=
  ⟨⟨by unfold StoreWF; decide, by unfold CountersMatch; decide⟩,
    (claim_C6_counters_equal_vote_rows sampleDb (by unfold StoreWF; decide)
      (by unfold CountersMatch; decide)).2.1 2 20 false none⟩

end Roomy
